import Mathlib

/-!
Shallow embedding of `src/estimate_watermark.py` (automatic-watermark-detection).

Numeric model: numpy `float32` samples are modelled as real numbers (`ℝ`);
shapes are explicit natural numbers carried next to the data.  A dense
`(H, W, C)` numpy array is an `Arr3`: the `data` function is meaningful on
indices `i < H`, `j < W`, `c < C` and junk elsewhere.  Python exceptions are
modelled with `Except Err`.  External library collaborators (cv2.imread,
cv2.Sobel, cv2.Canny, cv2.filter2D, cv2.rectangle, np.random) are passed to
the embedded functions as explicit function arguments, exactly as the spec
treats them ("library services ... with well-defined input/output array
contracts"); scipy's DST primitives are embedded directly below.

One deliberate modelling note: Lean's total real division assigns `x / 0 = 0`
whereas numpy produces `inf`/`nan`.  The only claim paths that divide by zero
(the all-zero mask of C4) lead, in both semantics, to a mask containing no
pixel equal to `1`, so the settled verdicts are unaffected; every other
theorem carries hypotheses that keep the denominators nonzero.
-/

noncomputable section

open Classical

/-- Python exception outcomes of the source file. -/
inductive Err where
  /-- `AttributeError`: `.astype` invoked on the `None` that `cv2.imread`
  returns for an unreadable file (`estimate_watermark`, line 30). -/
  | attributeNoneType
  /-- Python `assert` failure (the spec's `InvalidArgument`). -/
  | assertionError
  /-- numpy `ValueError`: reduction (`np.min`/`np.max`) over a zero-size
  array (the spec's `EmptyMask` condition). -/
  | emptyReduce
  /-- numpy broadcast failure on an in-place array operation
  (the spec's `ShapeMismatch`). -/
  | broadcastError
  deriving DecidableEq

/-- A dense 3-axis numpy array of shape `(H, W, C)` over real samples. -/
structure Arr3 where
  H : ℕ
  W : ℕ
  C : ℕ
  data : ℕ → ℕ → ℕ → ℝ

/-- A dense 2-axis numpy array of shape `(H, W)` over real samples. -/
structure Arr2 where
  H : ℕ
  W : ℕ
  data : ℕ → ℕ → ℝ

/-- `np.zeros((h, w, c))`. -/
def Arr3.zeros (h w c : ℕ) : Arr3 := ⟨h, w, c, fun _ _ _ => 0⟩

/-- Shape tuple of a 3-axis array. -/
def Arr3.shape (a : Arr3) : ℕ × ℕ × ℕ := (a.H, a.W, a.C)

/-- Row-major list of the in-range samples of channel `c`
(the reduction order numpy uses for `np.min`/`np.max` over axes `(0, 1)`). -/
def spatialList (a : Arr3) (c : ℕ) : List ℝ :=
  (List.range a.H).flatMap fun i => (List.range a.W).map fun j => a.data i j c

/-- Row-major list of all in-range samples of a 2-axis array. -/
def spatialList2 (a : Arr2) : List ℝ :=
  (List.range a.H).flatMap fun i => (List.range a.W).map fun j => a.data i j

/-- `np.min(im, axis=(0, 1))` at channel `c`: minimum over the spatial axes.
numpy raises on an empty reduction; every use below is guarded by nonempty
spatial extent, and the empty case carries the junk value `0`. -/
def npAminC (a : Arr3) (c : ℕ) : ℝ := (spatialList a c).min?.getD 0

/-- `np.max(im, axis=(0, 1))` at channel `c`. -/
def npAmaxC (a : Arr3) (c : ℕ) : ℝ := (spatialList a c).max?.getD 0

/-- `np.min(im, axis=(0, 1))` of a 2-axis array (a scalar). -/
def npAmin2 (a : Arr2) : ℝ := (spatialList2 a).min?.getD 0

/-- `np.max(im, axis=(0, 1))` of a 2-axis array (a scalar). -/
def npAmax2 (a : Arr2) : ℝ := (spatialList2 a).max?.getD 0

/-- `PlotImage` (source lines 52-60) on a 3-axis array:
`im = im - np.min(im, axis=(0,1))`, then
`div = 1. / np.max(im, axis=(0,1)) - np.min(im, axis=(0,1))`
(the second `np.min` is taken of the already-shifted `im`), then `im * div`.
All reductions are per channel. -/
def PlotImage3 (image : Arr3) : Arr3 :=
  let im : Arr3 :=
    ⟨image.H, image.W, image.C, fun i j c => image.data i j c - npAminC image c⟩
  let div : ℕ → ℝ := fun c => 1 / npAmaxC im c - npAminC im c
  ⟨im.H, im.W, im.C, fun i j c => im.data i j c * div c⟩

/-- `PlotImage` applied to a 2-axis array: `axis=(0, 1)` then reduces to a
scalar min/max (same source function, 2-D input as in `image_threshold`). -/
def PlotImage2 (image : Arr2) : Arr2 :=
  let im : Arr2 := ⟨image.H, image.W, fun i j => image.data i j - npAmin2 image⟩
  let div : ℝ := 1 / npAmax2 im - npAmin2 im
  ⟨im.H, im.W, fun i j => im.data i j * div⟩

/-- `normalized` (source lines 183-189): `2 * PlotImage(img) - 1`. -/
def normalized (img : Arr3) : Arr3 :=
  ⟨img.H, img.W, img.C, fun i j c => 2 * (PlotImage3 img).data i j c - 1⟩

/-- `image_threshold` (source lines 154-162): normalize with `PlotImage`,
set elements `>= threshold` to `1`, then set elements `< 1` to `0`. -/
def image_threshold (image : Arr2) (threshold : ℝ) : Arr2 :=
  let im := PlotImage2 image
  let im1 : Arr2 := ⟨im.H, im.W, fun i j => if threshold ≤ im.data i j then 1 else im.data i j⟩
  ⟨im1.H, im1.W, fun i j => if im1.data i j < 1 then 0 else im1.data i j⟩

/-- `np.average(a, axis=2)`: per-pixel mean over the channel axis. -/
def npAvgChannels (a : Arr3) : Arr2 :=
  ⟨a.H, a.W, fun i j => (∑ c in Finset.range a.C, a.data i j c) / a.C⟩

/-- The binary mask computed inside `crop_watermark` (source lines 172-174):
`W_mod = sqrt(gradx^2 + grady^2)`, `W_mod = PlotImage(W_mod)`,
`W_gray = image_threshold(np.average(W_mod, axis=2), threshold)`. -/
def watermarkMask (gradx grady : Arr3) (threshold : ℝ) : Arr2 :=
  let W_mod : Arr3 :=
    ⟨gradx.H, gradx.W, gradx.C, fun i j c =>
      Real.sqrt ((gradx.data i j c) ^ 2 + (grady.data i j c) ^ 2)⟩
  image_threshold (npAvgChannels (PlotImage3 W_mod)) threshold

/-- `np.where(W_gray == 1)` zipped: the row-major list of in-range positions
whose sample equals `1`. -/
def wherePositions (a : Arr2) : List (ℕ × ℕ) :=
  (List.range a.H).flatMap fun i =>
    (List.range a.W).filterMap fun j => if a.data i j = 1 then some (i, j) else none

/-- `np.min` of a 1-D integer index array; numpy raises `ValueError` on a
zero-size reduction (the spec's `EmptyMask`). -/
def npMinIdx (l : List ℕ) : Except Err ℕ :=
  match l.min? with
  | none => Except.error Err.emptyReduce
  | some v => Except.ok v

/-- `np.max` of a 1-D integer index array; raises on a zero-size reduction. -/
def npMaxIdx (l : List ℕ) : Except Err ℕ :=
  match l.max? with
  | none => Except.error Err.emptyReduce
  | some v => Except.ok v

/-- Python slice semantics `[a:b]` (step 1) on an axis of length `n`:
a negative endpoint is first shifted by `n`, then both endpoints are clamped
into `[0, n]`; the selected indices are `lo, lo+1, ..., hi-1`. -/
def pySliceIdx (n : ℕ) (a b : ℤ) : List ℕ :=
  let eff : ℤ → ℕ := fun v => (min (max (if v < 0 then v + n else v) 0) n).toNat
  List.range' (eff a) (eff b - eff a)

/-- `arr[r0:r1, c0:c1, :]` on a 3-axis array, with Python slice semantics on
both spatial axes. -/
def slice3 (a : Arr3) (r0 r1 c0 c1 : ℤ) : Arr3 :=
  let rows := pySliceIdx a.H r0 r1
  let cols := pySliceIdx a.W c0 c1
  ⟨rows.length, cols.length, a.C, fun i j c => a.data (rows.getD i 0) (cols.getD j 0) c⟩

/-- `crop_watermark` (source lines 165-180): threshold the normalized
gradient magnitude, take `np.where(W_gray == 1)`, and slice both gradient
arrays to `[min(x)-boundary_size-1 : max(x)+boundary_size+1,
min(y)-boundary_size-1 : max(y)+boundary_size+1, :]`. -/
def crop_watermark (gradx grady : Arr3) (threshold : ℝ) (boundary_size : ℕ) :
    Except Err (Arr3 × Arr3) := do
  let W_gray := watermarkMask gradx grady threshold
  let pos := wherePositions W_gray
  let xmin ← npMinIdx (pos.map Prod.fst)
  let xmax ← npMaxIdx (pos.map Prod.fst)
  let ymin ← npMinIdx (pos.map Prod.snd)
  let ymax ← npMaxIdx (pos.map Prod.snd)
  let xm : ℤ := (xmin : ℤ) - boundary_size - 1
  let xM : ℤ := (xmax : ℤ) + boundary_size + 1
  let ym : ℤ := (ymin : ℤ) - boundary_size - 1
  let yM : ℤ := (ymax : ℤ) + boundary_size + 1
  Except.ok (slice3 gradx xm xM ym yM, slice3 grady xm xM ym yM)

/-- The source's module constant `KERNEL_SIZE = 3`. -/
def KERNEL_SIZE : ℕ := 3

/-- `cv2.imread(path).astype(np.float32)` (source line 30): `cv2.imread`
yields `None` for an unreadable file, and the source calls `.astype` on that
result *before* the `None` test, so a decode failure raises
`AttributeError`. -/
def readImageAsFloat (decode : String → Option Arr3) (path : String) :
    Except Err Arr3 :=
  match decode path with
  | none => Except.error Err.attributeNoneType
  | some img => Except.ok img

/-- The per-file loop of `estimate_watermark` (source lines 27-35) over the
files yielded by the directory walk: read each file (raising on decode
failure, see `readImageAsFloat`), normalize with `PlotImage`, and collect.
The source's `else: print("%s not found.")` branch is unreachable, because
`img` can never be `None` after the `.astype` call. -/
def collectImages (decode : String → Option Arr3) : List String → Except Err (List Arr3)
  | [] => Except.ok []
  | p :: ps => do
      let img ← readImageAsFloat decode p
      let rest ← collectImages decode ps
      Except.ok (PlotImage3 img :: rest)

/-- `np.median` of a list of samples (axis-0 reduction at one position):
sort, then take the middle element (odd length) or the mean of the two
middle elements (even length). -/
def npMedian (l : List ℝ) : ℝ :=
  let s := l.mergeSort fun a b => decide (a ≤ b)
  if l.length % 2 = 1 then s.getD (l.length / 2) 0
  else (s.getD (l.length / 2 - 1) 0 + s.getD (l.length / 2) 0) / 2

/-- `np.median(np.array(gs), axis=0)`: per-pixel, per-channel median across
a stack of equal-shaped arrays (shape taken from the first). -/
def medianStack (gs : List Arr3) : Arr3 :=
  let hd := gs.headD (Arr3.zeros 0 0 0)
  ⟨hd.H, hd.W, hd.C, fun i j c => npMedian (gs.map fun g => g.data i j c)⟩

/-- `estimate_watermark` (source lines 17-49).  External collaborators are
explicit: `decode` stands for `cv2.imread` on a walked path, `sobelX k`/
`sobelY k` for `cv2.Sobel(·, cv2.CV_32F, 1, 0, ksize=k)` /
`cv2.Sobel(·, cv2.CV_32F, 0, 1, ksize=k)`, `folderExists` for
`os.path.exists(foldername)` and `files` for the paths yielded by
`os.walk`.  A missing folder warns and returns `None`; a decode failure
raises out of the per-file loop (see `readImageAsFloat`). -/
def estimate_watermark (decode : String → Option Arr3)
    (sobelX sobelY : ℕ → Arr3 → Arr3) (folderExists : Bool)
    (files : List String) :
    Except Err (Option (Arr3 × Arr3 × List Arr3 × List Arr3)) :=
  if folderExists = false then Except.ok none
  else do
    let images ← collectImages decode files
    let gradx := images.map (sobelX KERNEL_SIZE)
    let grady := images.map (sobelY KERNEL_SIZE)
    let Wm_x := medianStack gradx
    let Wm_y := medianStack grady
    Except.ok (some (Wm_x, Wm_y, gradx, grady))

/-- Elementwise array sum `fxx + fyy` (source line 126); shapes agree in
every use below (`cv2.Sobel` is shape-preserving), and the shape of the
first operand is carried. -/
def Arr3.add (a b : Arr3) : Arr3 :=
  ⟨a.H, a.W, a.C, fun i j c => a.data i j c + b.data i j c⟩

/-- One pass of the relaxation loop body (source lines 144-145):
`est[1:-1, 1:-1, :] = 0.25*(est[0:-2, 1:-1, :] + est[1:-1, 0:-2, :]
+ est[2:, 1:-1, :] + est[1:-1, 2:, :] - h*h*laplacian[1:-1, 1:-1, :])`.
The numpy right-hand side is materialized before the store, so every
interior pixel is replaced simultaneously from the previous iterate; the
outermost boundary rows/columns are untouched. -/
def jacobiStep (laplacian : Arr3) (h : ℝ) (est : Arr3) : Arr3 :=
  ⟨est.H, est.W, est.C, fun i j c =>
    if 1 ≤ i ∧ i + 1 < est.H ∧ 1 ≤ j ∧ j + 1 < est.W then
      0.25 * (est.data (i - 1) j c + est.data i (j - 1) c +
              est.data (i + 1) j c + est.data i (j + 1) c -
              h * h * laplacian.data i j c)
    else est.data i j c⟩

/-- `np.sum(np.square(est - old_est))` (source line 146): the sum of squared
changes over all in-range samples. -/
def sqDiff (a b : Arr3) : ℝ :=
  ∑ i in Finset.range a.H, ∑ j in Finset.range a.W, ∑ c in Finset.range a.C,
    (a.data i j c - b.data i j c) ^ 2

/-- The `for i in range(num_iters)` loop of `poisson_reconstruct` (source
lines 142-147): run exactly `n` Jacobi passes, appending to `loss` the sum
of squared changes of each pass.  Returns the final iterate together with
the recorded loss sequence. -/
def poissonLoop (laplacian : Arr3) (h : ℝ) : ℕ → Arr3 → Arr3 × List ℝ
  | 0, est => (est, [])
  | n + 1, est =>
      let newEst := jacobiStep laplacian h est
      let error := sqDiff newEst est
      let rest := poissonLoop laplacian h n newEst
      (rest.1, error :: rest.2)

/-- `est[1:-1, 1:-1, :] = np.random.random((m-2, n-2, p))` (source line 139):
overwrite the interior (all channels) with the injected random source
`rand`, indexed by the interior-relative position. -/
def interiorRandom (rand : ℕ → ℕ → ℕ → ℝ) (est : Arr3) : Arr3 :=
  ⟨est.H, est.W, est.C, fun i j c =>
    if 1 ≤ i ∧ i + 1 < est.H ∧ 1 ≤ j ∧ j + 1 < est.W then rand (i - 1) (j - 1) c
    else est.data i j c⟩

/-- `poisson_reconstruct` (source lines 116-151), the iterative solver.
`sobelX k`/`sobelY k` stand for the `cv2.Sobel` x/y derivative with kernel
size `k`, and `rand` for `np.random.random`.  The Laplacian is
`Sobel_x(gradx) + Sobel_y(grady)`; with `boundary_zero = False` the two
source `assert`s demand a boundary image of exactly the Laplacian's shape.
After the loop the estimate is normalized with `PlotImage`; only the
estimate is returned — the recorded `loss` list is dropped. -/
def poisson_reconstruct (sobelX sobelY : ℕ → Arr3 → Arr3)
    (rand : ℕ → ℕ → ℕ → ℝ) (gradx grady : Arr3) (kernel_size : ℕ)
    (num_iters : ℕ) (h : ℝ) (boundary_image : Option Arr3)
    (boundary_zero : Bool) : Except Err Arr3 := do
  let fxx := sobelX kernel_size gradx
  let fyy := sobelY kernel_size grady
  let laplacian := fxx.add fyy
  let est ←
    if boundary_zero then
      pure (Arr3.zeros laplacian.H laplacian.W laplacian.C)
    else
      match boundary_image with
      | none => Except.error Err.assertionError
      | some b =>
          if b.shape = laplacian.shape then pure b
          else Except.error Err.assertionError
  let est := interiorRandom rand est
  let run := poissonLoop laplacian h num_iters est
  Except.ok (PlotImage3 run.1)

/-- numpy in-place broadcast compatibility for one axis: the source extent
must equal the destination extent or be `1`. -/
def bcastDim (s d : ℕ) : Prop := s = d ∨ s = 1

instance (s d : ℕ) : Decidable (bcastDim s d) := by
  unfold bcastDim; infer_instance

/-- numpy in-place broadcast compatibility of a 3-axis source shape into a
3-axis destination (view) shape. -/
def bcastShape (s d : ℕ × ℕ × ℕ) : Prop :=
  bcastDim s.1 d.1 ∧ bcastDim s.2.1 d.2.1 ∧ bcastDim s.2.2 d.2.2

instance (s d : ℕ × ℕ × ℕ) : Decidable (bcastShape s d) := by
  unfold bcastShape; infer_instance

/-- Broadcast read from a source array at a destination-view position:
axes of extent `1` are read at index `0`. -/
def bGet (b : Arr3) (i j c : ℕ) : ℝ :=
  b.data (if b.H = 1 then 0 else i) (if b.W = 1 then 0 else j)
    (if b.C = 1 then 0 else c)

/-- Shape of `gradx[:-1, 1:] - gradx[:-1, :-1]` (the `gxx` term of
`poisson_reconstruct2`). -/
def gxxShape (gradx : Arr3) : ℕ × ℕ × ℕ := (gradx.H - 1, gradx.W - 1, gradx.C)

/-- Shape of `grady[1:, :-1] - grady[:-1, :-1]` (the `gyy` term). -/
def gyyShape (grady : Arr3) : ℕ × ℕ × ℕ := (grady.H - 1, grady.W - 1, grady.C)

/-- Shape of the destination views `f[:-1, 1:, :]` and `f[1:, :-1, :]`
into which `gxx`/`gyy` are accumulated (`f` has the boundary's shape). -/
def interiorAddShape (b : Arr3) : ℕ × ℕ × ℕ := (b.H - 1, b.W - 1, b.C)

/-- Orthonormal DST-II along one axis of length `N`
(`scipy.fftpack.dst(..., norm='ortho')`, default `type=2`, `axis=-1`). -/
def dstII (N : ℕ) (v : ℕ → ℝ) (k : ℕ) : ℝ :=
  (if k + 1 = N then Real.sqrt (1 / (4 * N)) else Real.sqrt (1 / (2 * N))) * 2 *
    ∑ n in Finset.range N, v n * Real.sin (Real.pi * (k + 1) * (2 * n + 1) / (2 * N))

/-- Orthonormal DST-III along one axis of length `N`
(`scipy.fftpack.idst(..., norm='ortho')`, the inverse of the DST-II). -/
def dstIII (N : ℕ) (v : ℕ → ℝ) (k : ℕ) : ℝ :=
  ∑ n in Finset.range N,
    (if n + 1 = N then Real.sqrt (1 / (4 * N)) else Real.sqrt (1 / (2 * N))) * 2 *
      v n * Real.sin (Real.pi * (n + 1) * (2 * k + 1) / (2 * N))

/-- numpy `.T` on a 3-axis array: reverse the axis order. -/
def Arr3.transpose (a : Arr3) : Arr3 := ⟨a.C, a.W, a.H, fun i j c => a.data c j i⟩

/-- `scipy.fftpack.dst(a, norm='ortho')` on a 3-axis array: the transform
runs along the default last axis (the channel axis). -/
def dstLast (a : Arr3) : Arr3 :=
  ⟨a.H, a.W, a.C, fun i j c => dstII a.C (fun n => a.data i j n) c⟩

/-- `scipy.fftpack.idst(a, norm='ortho')` on a 3-axis array (last axis). -/
def idstLast (a : Arr3) : Arr3 :=
  ⟨a.H, a.W, a.C, fun i j c => dstIII a.C (fun n => a.data i j n) c⟩

/-- The eigenvalue denominator (source lines 93-96) at row `a`, column `b`
of an interior grid of shape `(Hf, Wf)`:
`(2*cos(pi*x/(Wf+2)) - 2) + (2*cos(pi*y/(Hf+2)) - 2)` with meshgrid
coordinates `x = b + 1`, `y = a + 1`. -/
def denomEig (Hf Wf a b : ℕ) : ℝ :=
  (2 * Real.cos (Real.pi * (b + 1) / (Wf + 2)) - 2) +
    (2 * Real.cos (Real.pi * (a + 1) / (Hf + 2)) - 2)

/-- `poisson_reconstruct2` (source lines 63-113), the spectral solver.
A missing boundary defaults to zeros of `gradx`'s shape.  The function
performs no explicit shape check: the only failure points are the two
numpy in-place accumulations `f[:-1, 1:, :] += gxx` and
`f[1:, :-1, :] += gyy`, which raise iff the addend is not broadcastable
into the destination view. -/
def poisson_reconstruct2 (gradx grady : Arr3) (boundarysrc : Option Arr3) :
    Except Err Arr3 :=
  let bsrc := boundarysrc.getD (Arr3.zeros gradx.H gradx.W gradx.C)
  let gyy : Arr3 := ⟨grady.H - 1, grady.W - 1, grady.C, fun i j c =>
    grady.data (i + 1) j c - grady.data i j c⟩
  let gxx : Arr3 := ⟨gradx.H - 1, gradx.W - 1, gradx.C, fun i j c =>
    gradx.data i (j + 1) c - gradx.data i j c⟩
  let f0 := Arr3.zeros bsrc.H bsrc.W bsrc.C
  if bcastShape gxx.shape (interiorAddShape bsrc) then
    if bcastShape gyy.shape (interiorAddShape bsrc) then
      let f1 : Arr3 := ⟨f0.H, f0.W, f0.C, fun i j c =>
        if i + 1 < f0.H ∧ 1 ≤ j ∧ j < f0.W ∧ c < f0.C then
          f0.data i j c + bGet gxx i (j - 1) c
        else f0.data i j c⟩
      let f2 : Arr3 := ⟨f1.H, f1.W, f1.C, fun i j c =>
        if 1 ≤ i ∧ i < f1.H ∧ j + 1 < f1.W ∧ c < f1.C then
          f1.data i j c + bGet gyy (i - 1) j c
        else f1.data i j c⟩
      let boundary := bsrc
      let f_bp : Arr3 := ⟨bsrc.H - 2, bsrc.W - 2, bsrc.C, fun a b c =>
        -4 * boundary.data (a + 1) (b + 1) c + boundary.data (a + 1) (b + 2) c +
          boundary.data (a + 1) b c + boundary.data (a + 2) (b + 1) c +
          boundary.data a (b + 1) c⟩
      let f3 : Arr3 := ⟨bsrc.H - 2, bsrc.W - 2, bsrc.C, fun a b c =>
        f2.data (a + 1) (b + 1) c - f_bp.data a b c⟩
      let tt := dstLast f3
      let fsin := (dstLast tt.transpose).transpose
      let g : Arr3 := ⟨f3.H, f3.W, f3.C, fun a b c =>
        fsin.data a b c / denomEig f3.H f3.W a b⟩
      let tt2 := idstLast g
      let img_tt := (idstLast tt2.transpose).transpose
      let result : Arr3 := ⟨bsrc.H, bsrc.W, bsrc.C, fun i j c =>
        if 1 ≤ i ∧ i + 1 < bsrc.H ∧ 1 ≤ j ∧ j + 1 < bsrc.W then
          img_tt.data (i - 1) (j - 1) c
        else boundary.data i j c⟩
      Except.ok (normalized result)
    else Except.error Err.broadcastError
  else Except.error Err.broadcastError

/-- `np.average(np.sqrt(np.square(gx) + np.square(gy)), axis=2)` (source
line 198): the channel-averaged gradient magnitude used as the correlation
kernel `Wm`. -/
def magAvg (gx gy : Arr3) : Arr2 :=
  ⟨gx.H, gx.W, fun i j =>
    (∑ c in Finset.range gx.C,
      Real.sqrt ((gx.data i j c) ^ 2 + (gy.data i j c) ^ 2)) / gx.C⟩

/-- `np.argmax` of a 2-axis array: flat row-major index of the first
occurrence of the maximum (the array's own layout is used to flatten). -/
def argmaxFlat (a : Arr2) : ℕ :=
  (List.range (a.H * a.W)).foldl
    (fun acc k =>
      if a.data (acc / a.W) (acc % a.W) < a.data (k / a.W) (k % a.W) then k else acc) 0

/-- `watermark_detector` (source lines 192-212).  External collaborators
are explicit: `canny` stands for `cv2.Canny`, `filt` for
`cv2.filter2D(edgemap, -1, Wm)` and `draw` for `cv2.rectangle` on a copy
of the target.  The chamfer response peak is unraveled with
`img.shape[:-1]`, converted to a top-left corner by subtracting half the
kernel extents, and returned with the annotated copy and the kernel
shape. -/
def watermark_detector (canny : Arr3 → ℝ → ℝ → Arr2) (filt : Arr2 → Arr2 → Arr2)
    (draw : Arr3 → ℤ × ℤ → ℤ × ℤ → ℝ × ℝ × ℝ → Arr3) (img gx gy : Arr3)
    (thresh_low thresh_high : ℝ) : Arr3 × (ℤ × ℤ) × (ℕ × ℕ) :=
  let Wm := magAvg gx gy
  let img_edgemap := canny img thresh_low thresh_high
  let chamfer_dist := filt img_edgemap Wm
  let rect : ℕ × ℕ := (Wm.H, Wm.W)
  let flat := argmaxFlat chamfer_dist
  let index : ℕ × ℕ := (flat / img.W, flat % img.W)
  let x : ℤ := (index.1 : ℤ) - (rect.1 / 2 : ℕ)
  let y : ℤ := (index.2 : ℤ) - (rect.2 / 2 : ℕ)
  let im := draw img (y, x) (y + (rect.2 : ℤ), x + (rect.1 : ℤ)) (255, 0, 0)
  (im, (x, y), rect)

/-- Modelled from the spec wording of claim C7: "replace each interior pixel
with the average of its four grid neighbors minus h²·Laplacian at that
pixel" — to be compared with the source's `jacobiStep`. -/
def claimNeighborUpdate (est laplacian : Arr3) (h : ℝ) (i j c : ℕ) : ℝ :=
  (est.data (i - 1) j c + est.data i (j - 1) c + est.data (i + 1) j c +
    est.data i (j + 1) c) / 4 - h * h * laplacian.data i j c

/-- Modelled from the spec wording of claim C3: a bounding box `[lo, hi]`
expanded by exactly `bs` pixels on each side spans `hi - lo + 2*bs + 1`
indices — to be compared with the extent the source's slice produces. -/
def claimCropExtent (lo hi bs : ℕ) : ℕ := hi - lo + 2 * bs + 1

/-- Decode collaborator for the C1 failing input: `bad.png` is unreadable
(`cv2.imread` returns `None`), every other path decodes. -/
def cexDecode : String → Option Arr3 :=
  fun p => if p = "bad.png" then none else some (Arr3.zeros 2 2 3)

/-- A concrete shape-preserving stand-in for the `cv2.Sobel` collaborator. -/
def cexSobel : ℕ → Arr3 → Arr3 := fun _ a => a

/-- A concrete stand-in for `np.random.random`. -/
def cexRand : ℕ → ℕ → ℕ → ℝ := fun _ _ _ => 0

/-- C3 input: a 3x3 single-channel x-gradient, value 3 at the center pixel
and 0 elsewhere. -/
def cgx3 : Arr3 := ⟨3, 3, 1, fun i j _ => if i = 1 ∧ j = 1 then 3 else 0⟩

/-- C3 input: the matching y-gradient, value 4 at the center pixel. -/
def cgy3 : Arr3 := ⟨3, 3, 1, fun i j _ => if i = 1 ∧ j = 1 then 4 else 0⟩

/-- The gradient-magnitude array `W_mod` that `crop_watermark` computes from
`cgx3`/`cgy3` (spelled out for use in evaluation lemmas). -/
def cexWmod : Arr3 :=
  ⟨3, 3, 1, fun i j c =>
    Real.sqrt ((cgx3.data i j c) ^ 2 + (cgy3.data i j c) ^ 2)⟩

/-- C4 witness input: an all-zero 2x2 single-channel gradient field. -/
def czero221 : Arr3 := Arr3.zeros 2 2 1

/-- C7 counterexample Laplacian: 3x3x1, value 4 at the center pixel. -/
def cexLap7 : Arr3 := ⟨3, 3, 1, fun i j _ => if i = 1 ∧ j = 1 then 4 else 0⟩

/-- C7 counterexample estimate: an all-zero 3x3x1 field. -/
def cexEst7 : Arr3 := Arr3.zeros 3 3 1

/-- C6 counterexample boundary: 5x7x3 zeros, a shape different from the
2x2x1 gradients it is paired with. -/
def c6b : Arr3 := Arr3.zeros 5 7 3

/-- C10 witness target image: 3x3x1 zeros. -/
def w10img : Arr3 := Arr3.zeros 3 3 1

/-- C10 witness cropped watermark gradient: 2x2x1 zeros. -/
def w10gx : Arr3 := Arr3.zeros 2 2 1

/-- C10 witness `cv2.Canny` collaborator: a constant 3x3 edge map. -/
def w10canny : Arr3 → ℝ → ℝ → Arr2 := fun _ _ _ => ⟨3, 3, fun _ _ => 0⟩

/-- C10 witness `cv2.filter2D` collaborator: a 3x3 response with its unique
maximum 1 at position (1, 2). -/
def w10filt : Arr2 → Arr2 → Arr2 :=
  fun _ _ => ⟨3, 3, fun i j => if i = 1 ∧ j = 2 then 1 else 0⟩

/-- C10 witness `cv2.rectangle` collaborator: returns the copy unchanged. -/
def w10draw : Arr3 → ℤ × ℤ → ℤ × ℤ → ℝ × ℝ × ℝ → Arr3 := fun im _ _ _ => im

/-- C5 witness input: a 1x2x1 array with samples 0 and 1. -/
def w5arr : Arr3 := ⟨1, 2, 1, fun _ j _ => (j : ℝ)⟩

theorem listMin?_spec {α : Type} [LinearOrder α] (l : List α) (hne : l ≠ []) :
    ∃ v, l.min? = some v ∧ v ∈ l ∧ ∀ b ∈ l, v ≤ b := by
  obtain ⟨x, xs, rfl⟩ := List.exists_cons_of_ne_nil hne
  have h : (x :: xs).min? = some (xs.foldl min x) := rfl
  exact ⟨xs.foldl min x, h, List.min?_mem (fun a b => min_choice a b) h,
    (List.le_min?_iff (fun a b c => le_min_iff) h).mp le_rfl⟩

theorem listMax?_spec {α : Type} [LinearOrder α] (l : List α) (hne : l ≠ []) :
    ∃ v, l.max? = some v ∧ v ∈ l ∧ ∀ b ∈ l, b ≤ v := by
  obtain ⟨x, xs, rfl⟩ := List.exists_cons_of_ne_nil hne
  have h : (x :: xs).max? = some (xs.foldl max x) := rfl
  exact ⟨xs.foldl max x, h, List.max?_mem (fun a b => max_choice a b) h,
    (List.max?_le_iff (fun a b c => max_le_iff) h).mp le_rfl⟩

theorem mem_spatialList {a : Arr3} {c : ℕ} {x : ℝ} :
    x ∈ spatialList a c ↔ ∃ i, i < a.H ∧ ∃ j, j < a.W ∧ a.data i j c = x := by
  simp [spatialList]

theorem mem_spatialList2 {a : Arr2} {x : ℝ} :
    x ∈ spatialList2 a ↔ ∃ i, i < a.H ∧ ∃ j, j < a.W ∧ a.data i j = x := by
  simp [spatialList2]

theorem npAminC_eq_of {a : Arr3} {c : ℕ} {v : ℝ}
    (hmem : ∃ i, i < a.H ∧ ∃ j, j < a.W ∧ a.data i j c = v)
    (hle : ∀ i j, i < a.H → j < a.W → v ≤ a.data i j c) : npAminC a c = v := by
  have hvin : v ∈ spatialList a c := mem_spatialList.mpr hmem
  obtain ⟨w, hw, hwmem, hwle⟩ := listMin?_spec _ (List.ne_nil_of_mem hvin)
  rw [npAminC, hw, Option.getD_some]
  obtain ⟨i, hi, j, hj, hv⟩ := mem_spatialList.mp hwmem
  exact le_antisymm (hwle _ hvin) (hv ▸ hle i j hi hj)

theorem npAmaxC_eq_of {a : Arr3} {c : ℕ} {v : ℝ}
    (hmem : ∃ i, i < a.H ∧ ∃ j, j < a.W ∧ a.data i j c = v)
    (hge : ∀ i j, i < a.H → j < a.W → a.data i j c ≤ v) : npAmaxC a c = v := by
  have hvin : v ∈ spatialList a c := mem_spatialList.mpr hmem
  obtain ⟨w, hw, hwmem, hwge⟩ := listMax?_spec _ (List.ne_nil_of_mem hvin)
  rw [npAmaxC, hw, Option.getD_some]
  obtain ⟨i, hi, j, hj, hv⟩ := mem_spatialList.mp hwmem
  exact le_antisymm (hv ▸ hge i j hi hj) (hwge _ hvin)

theorem npAmin2_eq_of {a : Arr2} {v : ℝ}
    (hmem : ∃ i, i < a.H ∧ ∃ j, j < a.W ∧ a.data i j = v)
    (hle : ∀ i j, i < a.H → j < a.W → v ≤ a.data i j) : npAmin2 a = v := by
  have hvin : v ∈ spatialList2 a := mem_spatialList2.mpr hmem
  obtain ⟨w, hw, hwmem, hwle⟩ := listMin?_spec _ (List.ne_nil_of_mem hvin)
  rw [npAmin2, hw, Option.getD_some]
  obtain ⟨i, hi, j, hj, hv⟩ := mem_spatialList2.mp hwmem
  exact le_antisymm (hwle _ hvin) (hv ▸ hle i j hi hj)

theorem npAmax2_eq_of {a : Arr2} {v : ℝ}
    (hmem : ∃ i, i < a.H ∧ ∃ j, j < a.W ∧ a.data i j = v)
    (hge : ∀ i j, i < a.H → j < a.W → a.data i j ≤ v) : npAmax2 a = v := by
  have hvin : v ∈ spatialList2 a := mem_spatialList2.mpr hmem
  obtain ⟨w, hw, hwmem, hwge⟩ := listMax?_spec _ (List.ne_nil_of_mem hvin)
  rw [npAmax2, hw, Option.getD_some]
  obtain ⟨i, hi, j, hj, hv⟩ := mem_spatialList2.mp hwmem
  exact le_antisymm (hv ▸ hge i j hi hj) (hwge _ hvin)

theorem npAminC_le {a : Arr3} {c i j : ℕ} (hi : i < a.H) (hj : j < a.W) :
    npAminC a c ≤ a.data i j c := by
  have hvin : a.data i j c ∈ spatialList a c :=
    mem_spatialList.mpr ⟨i, hi, j, hj, rfl⟩
  obtain ⟨w, hw, hwmem, hwle⟩ := listMin?_spec _ (List.ne_nil_of_mem hvin)
  rw [npAminC, hw, Option.getD_some]
  exact hwle _ hvin

theorem le_npAmaxC {a : Arr3} {c i j : ℕ} (hi : i < a.H) (hj : j < a.W) :
    a.data i j c ≤ npAmaxC a c := by
  have hvin : a.data i j c ∈ spatialList a c :=
    mem_spatialList.mpr ⟨i, hi, j, hj, rfl⟩
  obtain ⟨w, hw, hwmem, hwge⟩ := listMax?_spec _ (List.ne_nil_of_mem hvin)
  rw [npAmaxC, hw, Option.getD_some]
  exact hwge _ hvin

theorem npAminC_mem {a : Arr3} {c : ℕ} (hH : 0 < a.H) (hW : 0 < a.W) :
    ∃ i, i < a.H ∧ ∃ j, j < a.W ∧ a.data i j c = npAminC a c := by
  have hvin : a.data 0 0 c ∈ spatialList a c :=
    mem_spatialList.mpr ⟨0, hH, 0, hW, rfl⟩
  obtain ⟨w, hw, hwmem, hwle⟩ := listMin?_spec _ (List.ne_nil_of_mem hvin)
  rw [npAminC, hw, Option.getD_some]
  exact mem_spatialList.mp hwmem

theorem npAmaxC_mem {a : Arr3} {c : ℕ} (hH : 0 < a.H) (hW : 0 < a.W) :
    ∃ i, i < a.H ∧ ∃ j, j < a.W ∧ a.data i j c = npAmaxC a c := by
  have hvin : a.data 0 0 c ∈ spatialList a c :=
    mem_spatialList.mpr ⟨0, hH, 0, hW, rfl⟩
  obtain ⟨w, hw, hwmem, hwge⟩ := listMax?_spec _ (List.ne_nil_of_mem hvin)
  rw [npAmaxC, hw, Option.getD_some]
  exact mem_spatialList.mp hwmem

theorem shiftedMin_eq (image : Arr3) (c : ℕ) (hH : 0 < image.H) (hW : 0 < image.W) :
    npAminC ⟨image.H, image.W, image.C,
      fun i j c2 => image.data i j c2 - npAminC image c2⟩ c = 0 := by
  apply npAminC_eq_of
  · obtain ⟨i0, hi0, j0, hj0, hv⟩ := @npAminC_mem image c hH hW
    exact ⟨i0, hi0, j0, hj0, by
      show image.data i0 j0 c - npAminC image c = 0
      rw [hv, sub_self]⟩
  · intro i j hi hj
    show (0 : ℝ) ≤ image.data i j c - npAminC image c
    have h := @npAminC_le image c i j hi hj
    linarith

theorem shiftedMax_eq (image : Arr3) (c : ℕ) (hH : 0 < image.H) (hW : 0 < image.W) :
    npAmaxC ⟨image.H, image.W, image.C,
      fun i j c2 => image.data i j c2 - npAminC image c2⟩ c =
      npAmaxC image c - npAminC image c := by
  apply npAmaxC_eq_of
  · obtain ⟨i0, hi0, j0, hj0, hv⟩ := @npAmaxC_mem image c hH hW
    exact ⟨i0, hi0, j0, hj0, by
      show image.data i0 j0 c - npAminC image c = _
      rw [hv]⟩
  · intro i j hi hj
    show image.data i j c - npAminC image c ≤ _
    have h := @le_npAmaxC image c i j hi hj
    linarith

theorem PlotImage3_data_eq (image : Arr3) (c : ℕ) (hH : 0 < image.H)
    (hW : 0 < image.W) (i j : ℕ) :
    (PlotImage3 image).data i j c =
      (image.data i j c - npAminC image c) *
        (1 / (npAmaxC image c - npAminC image c)) := by
  have h1 := shiftedMin_eq image c hH hW
  have h2 := shiftedMax_eq image c hH hW
  simp only [PlotImage3]
  rw [h1, h2, sub_zero]

theorem npAmin2_le {a : Arr2} {i j : ℕ} (hi : i < a.H) (hj : j < a.W) :
    npAmin2 a ≤ a.data i j := by
  have hvin : a.data i j ∈ spatialList2 a := mem_spatialList2.mpr ⟨i, hi, j, hj, rfl⟩
  obtain ⟨w, hw, hwmem, hwle⟩ := listMin?_spec _ (List.ne_nil_of_mem hvin)
  rw [npAmin2, hw, Option.getD_some]
  exact hwle _ hvin

theorem le_npAmax2 {a : Arr2} {i j : ℕ} (hi : i < a.H) (hj : j < a.W) :
    a.data i j ≤ npAmax2 a := by
  have hvin : a.data i j ∈ spatialList2 a := mem_spatialList2.mpr ⟨i, hi, j, hj, rfl⟩
  obtain ⟨w, hw, hwmem, hwge⟩ := listMax?_spec _ (List.ne_nil_of_mem hvin)
  rw [npAmax2, hw, Option.getD_some]
  exact hwge _ hvin

theorem npAmin2_mem {a : Arr2} (hH : 0 < a.H) (hW : 0 < a.W) :
    ∃ i, i < a.H ∧ ∃ j, j < a.W ∧ a.data i j = npAmin2 a := by
  have hvin : a.data 0 0 ∈ spatialList2 a := mem_spatialList2.mpr ⟨0, hH, 0, hW, rfl⟩
  obtain ⟨w, hw, hwmem, hwle⟩ := listMin?_spec _ (List.ne_nil_of_mem hvin)
  rw [npAmin2, hw, Option.getD_some]
  exact mem_spatialList2.mp hwmem

theorem npAmax2_mem {a : Arr2} (hH : 0 < a.H) (hW : 0 < a.W) :
    ∃ i, i < a.H ∧ ∃ j, j < a.W ∧ a.data i j = npAmax2 a := by
  have hvin : a.data 0 0 ∈ spatialList2 a := mem_spatialList2.mpr ⟨0, hH, 0, hW, rfl⟩
  obtain ⟨w, hw, hwmem, hwge⟩ := listMax?_spec _ (List.ne_nil_of_mem hvin)
  rw [npAmax2, hw, Option.getD_some]
  exact mem_spatialList2.mp hwmem

theorem shiftedMin2_eq (image : Arr2) (hH : 0 < image.H) (hW : 0 < image.W) :
    npAmin2 ⟨image.H, image.W, fun i j => image.data i j - npAmin2 image⟩ = 0 := by
  apply npAmin2_eq_of
  · obtain ⟨i0, hi0, j0, hj0, hv⟩ := npAmin2_mem hH hW
    exact ⟨i0, hi0, j0, hj0, by
      show image.data i0 j0 - npAmin2 image = 0
      rw [hv, sub_self]⟩
  · intro i j hi hj
    show (0 : ℝ) ≤ image.data i j - npAmin2 image
    have h := @npAmin2_le image i j hi hj
    linarith

theorem shiftedMax2_eq (image : Arr2) (hH : 0 < image.H) (hW : 0 < image.W) :
    npAmax2 ⟨image.H, image.W, fun i j => image.data i j - npAmin2 image⟩ =
      npAmax2 image - npAmin2 image := by
  apply npAmax2_eq_of
  · obtain ⟨i0, hi0, j0, hj0, hv⟩ := npAmax2_mem hH hW
    exact ⟨i0, hi0, j0, hj0, by
      show image.data i0 j0 - npAmin2 image = _
      rw [hv]⟩
  · intro i j hi hj
    show image.data i j - npAmin2 image ≤ _
    have h := @le_npAmax2 image i j hi hj
    linarith

theorem PlotImage2_data_eq (image : Arr2) (hH : 0 < image.H) (hW : 0 < image.W)
    (i j : ℕ) :
    (PlotImage2 image).data i j =
      (image.data i j - npAmin2 image) * (1 / (npAmax2 image - npAmin2 image)) := by
  have h1 := shiftedMin2_eq image hH hW
  have h2 := shiftedMax2_eq image hH hW
  simp only [PlotImage2]
  rw [h1, h2, sub_zero]

theorem mem_wherePositions {a : Arr2} {p : ℕ × ℕ} :
    p ∈ wherePositions a ↔ p.1 < a.H ∧ p.2 < a.W ∧ a.data p.1 p.2 = 1 := by
  rcases p with ⟨i, j⟩
  constructor
  · intro h
    simp only [wherePositions, List.mem_flatMap, List.mem_filterMap,
      List.mem_range] at h
    obtain ⟨i2, hi2, j2, hj2, hf⟩ := h
    by_cases hd : a.data i2 j2 = 1
    · rw [if_pos hd] at hf
      obtain ⟨rfl, rfl⟩ : i2 = i ∧ j2 = j := by simpa using hf
      exact ⟨hi2, hj2, hd⟩
    · rw [if_neg hd] at hf
      simp at hf
  · rintro ⟨hi, hj, hd⟩
    simp only [wherePositions, List.mem_flatMap, List.mem_filterMap,
      List.mem_range]
    exact ⟨i, hi, j, hj, by rw [if_pos hd]⟩

theorem npMinIdx_eq_of {l : List ℕ} {v : ℕ} (hmem : v ∈ l)
    (hlb : ∀ x ∈ l, v ≤ x) : npMinIdx l = Except.ok v := by
  obtain ⟨w, hw, hwmem, hwle⟩ := listMin?_spec l (List.ne_nil_of_mem hmem)
  have h : npMinIdx l = Except.ok w := by unfold npMinIdx; rw [hw]
  rw [h, le_antisymm (hwle v hmem) (hlb w hwmem)]

theorem npMaxIdx_eq_of {l : List ℕ} {v : ℕ} (hmem : v ∈ l)
    (hub : ∀ x ∈ l, x ≤ v) : npMaxIdx l = Except.ok v := by
  obtain ⟨w, hw, hwmem, hwge⟩ := listMax?_spec l (List.ne_nil_of_mem hmem)
  have h : npMaxIdx l = Except.ok w := by unfold npMaxIdx; rw [hw]
  rw [h, le_antisymm (hub w hwmem) (hwge v hmem)]

theorem pySliceIdx_eq (n a b : ℕ) (hab : a ≤ b) (hbn : b ≤ n) :
    pySliceIdx n (a : ℤ) (b : ℤ) = List.range' a (b - a) := by
  unfold pySliceIdx
  have e1 : (if (a : ℤ) < 0 then (a : ℤ) + n else (a : ℤ)) = (a : ℤ) :=
    if_neg (by omega)
  have e2 : (if (b : ℤ) < 0 then (b : ℤ) + n else (b : ℤ)) = (b : ℤ) :=
    if_neg (by omega)
  have f1 : (min (max ((a : ℤ)) 0) (n : ℤ)).toNat = a := by
    rw [max_eq_left (by omega), min_eq_left (by omega)]
    omega
  have f2 : (min (max ((b : ℤ)) 0) (n : ℤ)).toNat = b := by
    rw [max_eq_left (by omega), min_eq_left (by omega)]
    omega
  simp only []
  rw [e1, e2, f1, f2]

theorem poissonLoop_length (lap : Arr3) (h : ℝ) (n : ℕ) (est : Arr3) :
    (poissonLoop lap h n est).2.length = n := by
  induction n generalizing est with
  | zero => rfl
  | succ k ih => simp [poissonLoop, ih]

theorem poissonLoop_fst (lap : Arr3) (h : ℝ) (n : ℕ) (est : Arr3) :
    (poissonLoop lap h n est).1 = (jacobiStep lap h)^[n] est := by
  induction n generalizing est with
  | zero => rfl
  | succ k ih => rw [Function.iterate_succ_apply]; simpa [poissonLoop] using ih _

theorem jacobiStep_H (lap : Arr3) (h : ℝ) (est : Arr3) :
    (jacobiStep lap h est).H = est.H := rfl

theorem jacobiStep_W (lap : Arr3) (h : ℝ) (est : Arr3) :
    (jacobiStep lap h est).W = est.W := rfl

theorem jacobiStep_boundary (lap : Arr3) (h : ℝ) (est : Arr3) (i j c : ℕ)
    (hout : ¬(1 ≤ i ∧ i + 1 < est.H ∧ 1 ≤ j ∧ j + 1 < est.W)) :
    (jacobiStep lap h est).data i j c = est.data i j c := by
  simp only [jacobiStep, if_neg hout]

theorem poissonLoop_boundary (lap : Arr3) (h : ℝ) (n : ℕ) (est : Arr3)
    (i j c : ℕ) (hout : ¬(1 ≤ i ∧ i + 1 < est.H ∧ 1 ≤ j ∧ j + 1 < est.W)) :
    ((poissonLoop lap h n est).1).data i j c = est.data i j c := by
  induction n generalizing est with
  | zero => rfl
  | succ k ih =>
      have hstep := jacobiStep_boundary lap h est i j c hout
      have hout2 : ¬(1 ≤ i ∧ i + 1 < (jacobiStep lap h est).H ∧ 1 ≤ j ∧
          j + 1 < (jacobiStep lap h est).W) := hout
      calc ((poissonLoop lap h (k + 1) est).1).data i j c
          = ((poissonLoop lap h k (jacobiStep lap h est)).1).data i j c := rfl
        _ = (jacobiStep lap h est).data i j c := ih _ hout2
        _ = est.data i j c := hstep

theorem foldl_argmax_spec (val : ℕ → ℝ) (l : List ℕ) (init : ℕ) :
    (l.foldl (fun acc k => if val acc < val k then k else acc) init = init ∨
      l.foldl (fun acc k => if val acc < val k then k else acc) init ∈ l) ∧
    val init ≤ val (l.foldl (fun acc k => if val acc < val k then k else acc) init) ∧
    ∀ k ∈ l, val k ≤ val (l.foldl (fun acc k => if val acc < val k then k else acc) init) := by
  induction l generalizing init with
  | nil => simp
  | cons x xs ih =>
    simp only [List.foldl_cons]
    by_cases hc : val init < val x
    · rw [if_pos hc]
      obtain ⟨ihmem, ihinit, ihall⟩ := ih x
      refine ⟨?_, le_trans (le_of_lt hc) ihinit, ?_⟩
      · rcases ihmem with h | h
        · exact Or.inr (by rw [h]; exact List.mem_cons_self x xs)
        · exact Or.inr (List.mem_cons_of_mem x h)
      · intro k hk
        rcases List.mem_cons.mp hk with rfl | hk2
        · exact ihinit
        · exact ihall k hk2
    · rw [if_neg hc]
      obtain ⟨ihmem, ihinit, ihall⟩ := ih init
      refine ⟨?_, ihinit, ?_⟩
      · rcases ihmem with h | h
        · exact Or.inl h
        · exact Or.inr (List.mem_cons_of_mem x h)
      · intro k hk
        rcases List.mem_cons.mp hk with rfl | hk2
        · exact le_trans (le_of_not_lt hc) ihinit
        · exact ihall k hk2

theorem slice3_spec (g : Arr3) (r1 r2 c1 c2 : ℕ) (hr : r1 ≤ r2) (hrH : r2 ≤ g.H)
    (hc : c1 ≤ c2) (hcW : c2 ≤ g.W) :
    (slice3 g (r1 : ℤ) (r2 : ℤ) (c1 : ℤ) (c2 : ℤ)).H = r2 - r1 ∧
    (slice3 g (r1 : ℤ) (r2 : ℤ) (c1 : ℤ) (c2 : ℤ)).W = c2 - c1 ∧
    (slice3 g (r1 : ℤ) (r2 : ℤ) (c1 : ℤ) (c2 : ℤ)).C = g.C ∧
    ∀ i j c, i < r2 - r1 → j < c2 - c1 →
      (slice3 g (r1 : ℤ) (r2 : ℤ) (c1 : ℤ) (c2 : ℤ)).data i j c =
        g.data (r1 + i) (c1 + j) c := by
  unfold slice3
  simp only []
  rw [pySliceIdx_eq g.H r1 r2 hr hrH, pySliceIdx_eq g.W c1 c2 hc hcW]
  refine ⟨by simp [List.length_range'], by simp [List.length_range'], by trivial, ?_⟩
  intro i j c hi hj
  have h1 : (List.range' r1 (r2 - r1)).getD i 0 = r1 + i := by
    rw [List.getD_eq_getElem _ _ (by simpa using hi), List.getElem_range']
    omega
  have h2 : (List.range' c1 (c2 - c1)).getD j 0 = c1 + j := by
    rw [List.getD_eq_getElem _ _ (by simpa using hj), List.getElem_range']
    omega
  rw [h1, h2]

theorem argmaxFlat_spec (a : Arr2) (hpos : 0 < a.H * a.W) :
    argmaxFlat a < a.H * a.W ∧
    ∀ k, k < a.H * a.W → a.data (k / a.W) (k % a.W) ≤
      a.data (argmaxFlat a / a.W) (argmaxFlat a % a.W) := by
  have h := foldl_argmax_spec (fun k => a.data (k / a.W) (k % a.W))
    (List.range (a.H * a.W)) 0
  simp only [] at h
  obtain ⟨hmem, _, hall⟩ := h
  unfold argmaxFlat
  constructor
  · rcases hmem with h2 | h2
    · rw [h2]; exact hpos
    · exact List.mem_range.mp h2
  · intro k hk
    exact hall k (List.mem_range.mpr hk)

/-- C1 (code bug shown on a failing input): in `estimate_watermark`, a file
whose decode fails (`cv2.imread` returns `None`) is NOT skipped: `.astype`
is called on the `None` before the `None`-test, so the walk raises
`AttributeError` and the batch aborts — the later file `"good.png"` is never
processed and no estimate is produced, contradicting the claim that decode
failures are skipped with a diagnostic and processing continues. -/
theorem estimate_watermark_decode_failure_fatal :
    estimate_watermark cexDecode cexSobel cexSobel true ["bad.png", "good.png"] =
      Except.error Err.attributeNoneType := by
  rfl

/-- C9 (confirmed): with the zero-boundary policy disabled, a missing
boundary image, or one whose shape differs from the Laplacian's, makes
`poisson_reconstruct` fail with the `assert` (`InvalidArgument`) condition —
for every iteration count, i.e. before any relaxation pass happens. -/
theorem poisson_reconstruct_boundary_assert (sobelX sobelY : ℕ → Arr3 → Arr3)
    (rand : ℕ → ℕ → ℕ → ℝ) (gradx grady : Arr3) (kernel_size num_iters : ℕ)
    (h : ℝ) (boundary_image : Option Arr3)
    (hbad : boundary_image = none ∨ ∃ b, boundary_image = some b ∧
      b.shape ≠ ((sobelX kernel_size gradx).add (sobelY kernel_size grady)).shape) :
    poisson_reconstruct sobelX sobelY rand gradx grady kernel_size num_iters h
      boundary_image false = Except.error Err.assertionError := by
  rcases hbad with rfl | ⟨b, rfl, hne⟩
  · rfl
  · simp only [poisson_reconstruct, if_neg hne]
    rfl

/-- Witness for C9: the concrete call with no boundary image fails with the
assert condition. -/
theorem poisson_reconstruct_boundary_assert_witness :
    ((none : Option Arr3) = none ∨ ∃ b, (none : Option Arr3) = some b ∧
      b.shape ≠ ((cexSobel 3 czero221).add (cexSobel 3 czero221)).shape) ∧
    poisson_reconstruct cexSobel cexSobel cexRand czero221 czero221 3 100 (1/10)
      none false = Except.error Err.assertionError :=
  ⟨Or.inl rfl, poisson_reconstruct_boundary_assert cexSobel cexSobel cexRand
    czero221 czero221 3 100 (1/10) none (Or.inl rfl)⟩

/-- C8 (confirmed): the relaxation loop runs exactly `num_iters` Jacobi
passes — the final iterate is the `num_iters`-fold application of the step,
one loss scalar is recorded per pass, and no tolerance cuts the loop short;
the zero-boundary call returns exactly the normalized `num_iters`-fold
iterate. -/
theorem poisson_reconstruct_runs_all_iterations (sobelX sobelY : ℕ → Arr3 → Arr3)
    (rand : ℕ → ℕ → ℕ → ℝ) (gradx grady : Arr3) (kernel_size num_iters : ℕ)
    (h : ℝ) :
    (∀ lap est, (poissonLoop lap h num_iters est).2.length = num_iters ∧
      (poissonLoop lap h num_iters est).1 = (jacobiStep lap h)^[num_iters] est) ∧
    poisson_reconstruct sobelX sobelY rand gradx grady kernel_size num_iters h
        none true =
      Except.ok (PlotImage3 ((jacobiStep
        ((sobelX kernel_size gradx).add (sobelY kernel_size grady)) h)^[num_iters]
        (interiorRandom rand (Arr3.zeros
          ((sobelX kernel_size gradx).add (sobelY kernel_size grady)).H
          ((sobelX kernel_size gradx).add (sobelY kernel_size grady)).W
          ((sobelX kernel_size gradx).add (sobelY kernel_size grady)).C)))) := by
  refine ⟨fun lap est => ⟨poissonLoop_length lap h num_iters est,
    poissonLoop_fst lap h num_iters est⟩, ?_⟩
  show Except.ok (PlotImage3 (poissonLoop _ h num_iters _).1) = _
  rw [poissonLoop_fst]

/-- C2 (code bug): `poisson_reconstruct`'s loop does record one squared-change
scalar per iteration in `loss`, but the function returns only the normalized
estimate — `loss` is not part of the returned value, contradicting both the
claim and the source's own docstring ("Also return the squared difference of
every step"). -/
theorem poisson_reconstruct_drops_loss (sobelX sobelY : ℕ → Arr3 → Arr3)
    (rand : ℕ → ℕ → ℕ → ℝ) (gradx grady : Arr3) (kernel_size num_iters : ℕ)
    (h : ℝ) :
    (∀ lap est, (poissonLoop lap h num_iters est).2.length = num_iters) ∧
    poisson_reconstruct sobelX sobelY rand gradx grady kernel_size num_iters h
        none true =
      Except.ok (PlotImage3 (poissonLoop
        ((sobelX kernel_size gradx).add (sobelY kernel_size grady)) h num_iters
        (interiorRandom rand (Arr3.zeros
          ((sobelX kernel_size gradx).add (sobelY kernel_size grady)).H
          ((sobelX kernel_size gradx).add (sobelY kernel_size grady)).W
          ((sobelX kernel_size gradx).add (sobelY kernel_size grady)).C))).1) :=
  ⟨fun lap est => poissonLoop_length lap h num_iters est, rfl⟩

/-- C7 counterexample: with `h = 1` and a Laplacian value of 4 at the center
of an all-zero 3x3 field, the source's update writes
`0.25*(0+0+0+0 - 1*1*4) = -1`, while the claim's "average of the four
neighbors minus h²·Laplacian" is `0 - 4 = -4`. -/
theorem jacobiStep_cex :
    (jacobiStep cexLap7 1 cexEst7).data 1 1 0 = -1 ∧
    claimNeighborUpdate cexEst7 cexLap7 1 1 1 0 = -4 ∧
    ((-1 : ℝ) ≠ -4) := by
  refine ⟨?_, ?_, by norm_num⟩
  · have hin : (1:ℕ) ≤ 1 ∧ 1 + 1 < cexEst7.H ∧ 1 ≤ 1 ∧ 1 + 1 < cexEst7.W := by
      refine ⟨le_refl 1, ?_, le_refl 1, ?_⟩ <;> norm_num [cexEst7, Arr3.zeros]
    simp only [jacobiStep, if_pos hin]
    norm_num [cexEst7, cexLap7, Arr3.zeros]
  · norm_num [claimNeighborUpdate, cexEst7, cexLap7, Arr3.zeros]

/-- C7 (amended): each pass replaces every interior pixel simultaneously
(from the previous iterate) with the average of its four grid neighbors
minus `h²·Laplacian/4` at that pixel, and the outermost boundary
rows/columns are unchanged throughout the loop. -/
theorem jacobi_update_amended (lap : Arr3) (h : ℝ) (est : Arr3) (n i j c : ℕ)
    (hin : 1 ≤ i ∧ i + 1 < est.H ∧ 1 ≤ j ∧ j + 1 < est.W) :
    (jacobiStep lap h est).data i j c =
      (est.data (i - 1) j c + est.data i (j - 1) c + est.data (i + 1) j c +
        est.data i (j + 1) c) / 4 - h * h * lap.data i j c / 4 ∧
    (∀ i2 j2 c2, ¬(1 ≤ i2 ∧ i2 + 1 < est.H ∧ 1 ≤ j2 ∧ j2 + 1 < est.W) →
      ((poissonLoop lap h n est).1).data i2 j2 c2 = est.data i2 j2 c2) := by
  constructor
  · simp only [jacobiStep, if_pos hin]
    ring
  · intro i2 j2 c2 hout
    exact poissonLoop_boundary lap h n est i2 j2 c2 hout

/-- Witness for C7 (amended) at the concrete center pixel of a 3x3 field. -/
theorem jacobi_update_amended_witness :
    (1 ≤ 1 ∧ 1 + 1 < cexEst7.H ∧ 1 ≤ 1 ∧ 1 + 1 < cexEst7.W) ∧
    ((jacobiStep cexLap7 1 cexEst7).data 1 1 0 =
      (cexEst7.data 0 1 0 + cexEst7.data 1 0 0 + cexEst7.data 2 1 0 +
        cexEst7.data 1 2 0) / 4 - 1 * 1 * cexLap7.data 1 1 0 / 4 ∧
    (∀ i2 j2 c2, ¬(1 ≤ i2 ∧ i2 + 1 < cexEst7.H ∧ 1 ≤ j2 ∧ j2 + 1 < cexEst7.W) →
      ((poissonLoop cexLap7 1 2 cexEst7).1).data i2 j2 c2 =
        cexEst7.data i2 j2 c2)) := by
  have hin : 1 ≤ 1 ∧ 1 + 1 < cexEst7.H ∧ 1 ≤ 1 ∧ 1 + 1 < cexEst7.W := by
    refine ⟨le_refl 1, ?_, le_refl 1, ?_⟩ <;> norm_num [cexEst7, Arr3.zeros]
  exact ⟨hin, jacobi_update_amended cexLap7 1 cexEst7 2 1 1 0 hin⟩

/-- C5 (confirmed): for every array that is non-constant in each channel,
`PlotImage` subtracts the per-channel spatial minimum and divides by the
per-channel (max − min) — the oddly-parenthesized `div` expression evaluates
to exactly that because the second `np.min` is taken of the already-shifted
image, whose minimum is 0 — so every in-range output sample lies in [0, 1],
with some pixel attaining 0 and some attaining 1 in every channel. -/
theorem PlotImage_normalizer (image : Arr3)
    (hnc : ∀ c, c < image.C → ∃ i, i < image.H ∧ ∃ j, j < image.W ∧
      ∃ i2, i2 < image.H ∧ ∃ j2, j2 < image.W ∧
        image.data i j c ≠ image.data i2 j2 c) :
    ∀ c, c < image.C →
      (∀ i j, i < image.H → j < image.W →
        (PlotImage3 image).data i j c =
          (image.data i j c - npAminC image c) /
            (npAmaxC image c - npAminC image c) ∧
        0 ≤ (PlotImage3 image).data i j c ∧ (PlotImage3 image).data i j c ≤ 1) ∧
      (∃ i, i < image.H ∧ ∃ j, j < image.W ∧ (PlotImage3 image).data i j c = 0) ∧
      (∃ i, i < image.H ∧ ∃ j, j < image.W ∧ (PlotImage3 image).data i j c = 1) := by
  intro c hc
  obtain ⟨i0, hi0, j0, hj0, i1, hi1, j1, hj1, hne⟩ := hnc c hc
  have hH : 0 < image.H := lt_of_le_of_lt (Nat.zero_le _) hi0
  have hW : 0 < image.W := lt_of_le_of_lt (Nat.zero_le _) hj0
  have hlt : npAminC image c < npAmaxC image c := by
    rcases lt_or_le (npAminC image c) (npAmaxC image c) with h | h
    · exact h
    · exfalso
      apply hne
      have e0 : image.data i0 j0 c = npAminC image c :=
        le_antisymm (le_trans (le_trans (le_npAmaxC hi0 hj0) h)
          (le_refl _)) (npAminC_le hi0 hj0)
      have e1 : image.data i1 j1 c = npAminC image c :=
        le_antisymm (le_trans (le_trans (le_npAmaxC hi1 hj1) h)
          (le_refl _)) (npAminC_le hi1 hj1)
      rw [e0, e1]
  have hpos : 0 < npAmaxC image c - npAminC image c := by linarith
  have hkey : ∀ i j, (PlotImage3 image).data i j c =
      (image.data i j c - npAminC image c) *
        (1 / (npAmaxC image c - npAminC image c)) :=
    fun i j => PlotImage3_data_eq image c hH hW i j
  refine ⟨?_, ?_, ?_⟩
  · intro i j hi hj
    refine ⟨by rw [hkey i j, mul_one_div], ?_, ?_⟩
    · rw [hkey i j]
      have h1 : 0 ≤ image.data i j c - npAminC image c := by
        linarith [@npAminC_le image c i j hi hj]
      positivity
    · rw [hkey i j, mul_one_div, div_le_one hpos]
      have h2 := @le_npAmaxC image c i j hi hj
      linarith
  · obtain ⟨ia, hia, ja, hja, hva⟩ := @npAminC_mem image c hH hW
    exact ⟨ia, hia, ja, hja, by rw [hkey ia ja, hva, sub_self, zero_mul]⟩
  · obtain ⟨ib, hib, jb, hjb, hvb⟩ := @npAmaxC_mem image c hH hW
    exact ⟨ib, hib, jb, hjb, by
      rw [hkey ib jb, hvb, mul_one_div]
      exact div_self (ne_of_gt hpos)⟩

/-- Witness for C5 on the concrete 1x2x1 array with samples 0 and 1. -/
theorem PlotImage_normalizer_witness :
    (∀ c, c < w5arr.C → ∃ i, i < w5arr.H ∧ ∃ j, j < w5arr.W ∧
      ∃ i2, i2 < w5arr.H ∧ ∃ j2, j2 < w5arr.W ∧
        w5arr.data i j c ≠ w5arr.data i2 j2 c) ∧
    (∀ c, c < w5arr.C →
      (∀ i j, i < w5arr.H → j < w5arr.W →
        (PlotImage3 w5arr).data i j c =
          (w5arr.data i j c - npAminC w5arr c) /
            (npAmaxC w5arr c - npAminC w5arr c) ∧
        0 ≤ (PlotImage3 w5arr).data i j c ∧ (PlotImage3 w5arr).data i j c ≤ 1) ∧
      (∃ i, i < w5arr.H ∧ ∃ j, j < w5arr.W ∧ (PlotImage3 w5arr).data i j c = 0) ∧
      (∃ i, i < w5arr.H ∧ ∃ j, j < w5arr.W ∧ (PlotImage3 w5arr).data i j c = 1)) := by
  have hnc : ∀ c, c < w5arr.C → ∃ i, i < w5arr.H ∧ ∃ j, j < w5arr.W ∧
      ∃ i2, i2 < w5arr.H ∧ ∃ j2, j2 < w5arr.W ∧
        w5arr.data i j c ≠ w5arr.data i2 j2 c := by
    intro c hc
    exact ⟨0, by norm_num [w5arr], 0, by norm_num [w5arr], 0, by norm_num [w5arr],
      1, by norm_num [w5arr], by norm_num [w5arr]⟩
  exact ⟨hnc, PlotImage_normalizer w5arr hnc⟩

/-- C4 (confirmed): whenever the thresholded magnitude mask contains no
pixel equal to 1, `crop_watermark` fails with the zero-size-reduction
(`EmptyMask`) condition instead of producing coordinates. -/
theorem crop_watermark_emptyMask (gradx grady : Arr3) (threshold : ℝ)
    (boundary_size : ℕ)
    (hno : ∀ i j, i < gradx.H → j < gradx.W →
      (watermarkMask gradx grady threshold).data i j ≠ 1) :
    crop_watermark gradx grady threshold boundary_size =
      Except.error Err.emptyReduce := by
  have hpos : wherePositions (watermarkMask gradx grady threshold) = [] := by
    rw [List.eq_nil_iff_forall_not_mem]
    intro p hp
    obtain ⟨h1, h2, h3⟩ := mem_wherePositions.mp hp
    exact hno p.1 p.2 h1 h2 h3
  simp only [crop_watermark, hpos, List.map_nil]
  rfl

theorem maskZeroAux (M : Arr3) (t : ℝ) (ht : 0 < t) (hH : 0 < M.H)
    (hW : 0 < M.W) (hz : ∀ i j c, M.data i j c = 0) (i j : ℕ) :
    (image_threshold (npAvgChannels (PlotImage3 M)) t).data i j = 0 := by
  have hmn : ∀ c, npAminC M c = 0 := fun c =>
    npAminC_eq_of ⟨0, hH, 0, hW, hz 0 0 c⟩
      (fun i2 j2 _ _ => le_of_eq (hz i2 j2 c).symm)
  have hmx : ∀ c, npAmaxC M c = 0 := fun c =>
    npAmaxC_eq_of ⟨0, hH, 0, hW, hz 0 0 c⟩
      (fun i2 j2 _ _ => le_of_eq (hz i2 j2 c))
  have hP : ∀ i2 j2 c, (PlotImage3 M).data i2 j2 c = 0 := by
    intro i2 j2 c
    rw [PlotImage3_data_eq M c hH hW, hz, hmn, hmx]
    norm_num
  have hA : ∀ i2 j2, (npAvgChannels (PlotImage3 M)).data i2 j2 = 0 := by
    intro i2 j2
    show (∑ c in Finset.range (PlotImage3 M).C, (PlotImage3 M).data i2 j2 c) /
      ((PlotImage3 M).C : ℝ) = 0
    rw [Finset.sum_congr rfl (fun c _ => hP i2 j2 c)]
    simp
  have hAH : 0 < (npAvgChannels (PlotImage3 M)).H := hH
  have hAW : 0 < (npAvgChannels (PlotImage3 M)).W := hW
  have hmn2 : npAmin2 (npAvgChannels (PlotImage3 M)) = 0 :=
    npAmin2_eq_of ⟨0, hAH, 0, hAW, hA 0 0⟩
      (fun i3 j3 _ _ => le_of_eq (hA i3 j3).symm)
  have hmx2 : npAmax2 (npAvgChannels (PlotImage3 M)) = 0 :=
    npAmax2_eq_of ⟨0, hAH, 0, hAW, hA 0 0⟩
      (fun i3 j3 _ _ => le_of_eq (hA i3 j3))
  have hA2 : (PlotImage2 (npAvgChannels (PlotImage3 M))).data i j = 0 := by
    rw [PlotImage2_data_eq _ hAH hAW, hA i j, hmn2, hmx2]
    norm_num
  simp only [image_threshold]
  rw [hA2, if_neg (not_le.mpr ht), if_pos (by norm_num : (0:ℝ) < 1)]

theorem czero_mask_eval (i j : ℕ) :
    (watermarkMask czero221 czero221 (1/2)).data i j = 0 := by
  unfold watermarkMask
  exact maskZeroAux _ _ (by norm_num) (by norm_num [czero221, Arr3.zeros])
    (by norm_num [czero221, Arr3.zeros])
    (fun i2 j2 c2 => by
      show Real.sqrt ((czero221.data i2 j2 c2) ^ 2 +
        (czero221.data i2 j2 c2) ^ 2) = 0
      norm_num [czero221, Arr3.zeros]) i j

/-- Witness for C4: the all-zero 2x2x1 gradient field with threshold 1/2
has a mask with no pixel equal to 1, and cropping fails with the
zero-size-reduction (`EmptyMask`) condition. -/
theorem crop_watermark_emptyMask_witness :
    (∀ i j, i < czero221.H → j < czero221.W →
      (watermarkMask czero221 czero221 (1/2)).data i j ≠ 1) ∧
    crop_watermark czero221 czero221 (1/2) 2 = Except.error Err.emptyReduce := by
  have hno : ∀ i j, i < czero221.H → j < czero221.W →
      (watermarkMask czero221 czero221 (1/2)).data i j ≠ 1 := by
    intro i j _ _
    rw [czero_mask_eval i j]
    norm_num
  exact ⟨hno, crop_watermark_emptyMask czero221 czero221 (1/2) 2 hno⟩

/-- C3 (amended): when the thresholded magnitude mask is 1 exactly on the
rectangle rows `r1..r2`, columns `c1..c2`, and the expanded slice stays in
bounds, `crop_watermark` returns the gradients cropped to the rectangle
expanded by `boundary_size + 1` pixels on the top and left and by
`boundary_size` pixels on the bottom and right (the source slices
`[min-bs-1 : max+bs+1]`, whose exclusive upper end makes the expansion
asymmetric); outside these in-bounds hypotheses a negative lower slice
endpoint would wrap Python-style rather than clip. -/
theorem crop_watermark_box (gx gy : Arr3) (t : ℝ) (bs : ℕ) (r1 r2 c1 c2 : ℕ)
    (hmask : ∀ i j, i < gx.H → j < gx.W →
      ((watermarkMask gx gy t).data i j = 1 ↔
        (r1 ≤ i ∧ i ≤ r2 ∧ c1 ≤ j ∧ j ≤ c2)))
    (hr12 : r1 ≤ r2) (hc12 : c1 ≤ c2) (hr1 : bs + 1 ≤ r1) (hc1 : bs + 1 ≤ c1)
    (hr2 : r2 + bs + 1 ≤ gx.H) (hc2 : c2 + bs + 1 ≤ gx.W)
    (hgH : gy.H = gx.H) (hgW : gy.W = gx.W) :
    crop_watermark gx gy t bs =
      Except.ok
        (slice3 gx ((r1 - (bs + 1) : ℕ) : ℤ) ((r2 + bs + 1 : ℕ) : ℤ)
          ((c1 - (bs + 1) : ℕ) : ℤ) ((c2 + bs + 1 : ℕ) : ℤ),
         slice3 gy ((r1 - (bs + 1) : ℕ) : ℤ) ((r2 + bs + 1 : ℕ) : ℤ)
          ((c1 - (bs + 1) : ℕ) : ℤ) ((c2 + bs + 1 : ℕ) : ℤ)) ∧
    ∀ g, g = gx ∨ g = gy →
      (slice3 g ((r1 - (bs + 1) : ℕ) : ℤ) ((r2 + bs + 1 : ℕ) : ℤ)
        ((c1 - (bs + 1) : ℕ) : ℤ) ((c2 + bs + 1 : ℕ) : ℤ)).H =
          r2 - r1 + 2 * bs + 2 ∧
      (slice3 g ((r1 - (bs + 1) : ℕ) : ℤ) ((r2 + bs + 1 : ℕ) : ℤ)
        ((c1 - (bs + 1) : ℕ) : ℤ) ((c2 + bs + 1 : ℕ) : ℤ)).W =
          c2 - c1 + 2 * bs + 2 ∧
      (slice3 g ((r1 - (bs + 1) : ℕ) : ℤ) ((r2 + bs + 1 : ℕ) : ℤ)
        ((c1 - (bs + 1) : ℕ) : ℤ) ((c2 + bs + 1 : ℕ) : ℤ)).C = g.C ∧
      ∀ i j c, i < r2 - r1 + 2 * bs + 2 → j < c2 - c1 + 2 * bs + 2 →
        (slice3 g ((r1 - (bs + 1) : ℕ) : ℤ) ((r2 + bs + 1 : ℕ) : ℤ)
          ((c1 - (bs + 1) : ℕ) : ℤ) ((c2 + bs + 1 : ℕ) : ℤ)).data i j c =
          g.data (r1 - (bs + 1) + i) (c1 - (bs + 1) + j) c := by
  have hmem_pos : ∀ p : ℕ × ℕ,
      p ∈ wherePositions (watermarkMask gx gy t) ↔
        (r1 ≤ p.1 ∧ p.1 ≤ r2 ∧ c1 ≤ p.2 ∧ p.2 ≤ c2) := by
    intro p
    rw [mem_wherePositions]
    constructor
    · rintro ⟨h1, h2, h3⟩
      exact (hmask p.1 p.2 h1 h2).mp h3
    · rintro ⟨ha, hb, hc, hd⟩
      have hi : p.1 < gx.H := by omega
      have hj : p.2 < gx.W := by omega
      exact ⟨hi, hj, (hmask p.1 p.2 hi hj).mpr ⟨ha, hb, hc, hd⟩⟩
  have h_r1c1 : ((r1, c1) : ℕ × ℕ) ∈ wherePositions (watermarkMask gx gy t) :=
    (hmem_pos _).mpr ⟨le_refl _, hr12, le_refl _, hc12⟩
  have h_r2c1 : ((r2, c1) : ℕ × ℕ) ∈ wherePositions (watermarkMask gx gy t) :=
    (hmem_pos _).mpr ⟨hr12, le_refl _, le_refl _, hc12⟩
  have h_r1c2 : ((r1, c2) : ℕ × ℕ) ∈ wherePositions (watermarkMask gx gy t) :=
    (hmem_pos _).mpr ⟨le_refl _, hr12, hc12, le_refl _⟩
  have hminx : npMinIdx ((wherePositions (watermarkMask gx gy t)).map Prod.fst) =
      Except.ok r1 :=
    npMinIdx_eq_of (List.mem_map.mpr ⟨(r1, c1), h_r1c1, rfl⟩)
      (by
        rintro x hx
        obtain ⟨p, hp, rfl⟩ := List.mem_map.mp hx
        exact ((hmem_pos p).mp hp).1)
  have hmaxx : npMaxIdx ((wherePositions (watermarkMask gx gy t)).map Prod.fst) =
      Except.ok r2 :=
    npMaxIdx_eq_of (List.mem_map.mpr ⟨(r2, c1), h_r2c1, rfl⟩)
      (by
        rintro x hx
        obtain ⟨p, hp, rfl⟩ := List.mem_map.mp hx
        exact ((hmem_pos p).mp hp).2.1)
  have hminy : npMinIdx ((wherePositions (watermarkMask gx gy t)).map Prod.snd) =
      Except.ok c1 :=
    npMinIdx_eq_of (List.mem_map.mpr ⟨(r1, c1), h_r1c1, rfl⟩)
      (by
        rintro x hx
        obtain ⟨p, hp, rfl⟩ := List.mem_map.mp hx
        exact ((hmem_pos p).mp hp).2.2.1)
  have hmaxy : npMaxIdx ((wherePositions (watermarkMask gx gy t)).map Prod.snd) =
      Except.ok c2 :=
    npMaxIdx_eq_of (List.mem_map.mpr ⟨(r1, c2), h_r1c2, rfl⟩)
      (by
        rintro x hx
        obtain ⟨p, hp, rfl⟩ := List.mem_map.mp hx
        exact ((hmem_pos p).mp hp).2.2.2)
  constructor
  · have e1 : ((r1 - (bs + 1) : ℕ) : ℤ) = (r1 : ℤ) - bs - 1 := by omega
    have e2 : ((r2 + bs + 1 : ℕ) : ℤ) = (r2 : ℤ) + bs + 1 := by push_cast; ring
    have e3 : ((c1 - (bs + 1) : ℕ) : ℤ) = (c1 : ℤ) - bs - 1 := by omega
    have e4 : ((c2 + bs + 1 : ℕ) : ℤ) = (c2 : ℤ) + bs + 1 := by push_cast; ring
    rw [e1, e2, e3, e4]
    simp only [crop_watermark]
    rw [hminx, hmaxx, hminy, hmaxy]
    rfl
  · rintro g (rfl | rfl)
    · obtain ⟨hs1, hs2, hs3, hs4⟩ := slice3_spec g (r1 - (bs + 1)) (r2 + bs + 1)
        (c1 - (bs + 1)) (c2 + bs + 1) (by omega) (by omega) (by omega) (by omega)
      exact ⟨by rw [hs1]; omega, by rw [hs2]; omega, hs3,
        fun i j c hi hj => hs4 i j c (by omega) (by omega)⟩
    · obtain ⟨hs1, hs2, hs3, hs4⟩ := slice3_spec g (r1 - (bs + 1)) (r2 + bs + 1)
        (c1 - (bs + 1)) (c2 + bs + 1) (by omega) (by omega) (by omega) (by omega)
      exact ⟨by rw [hs1]; omega, by rw [hs2]; omega, hs3,
        fun i j c hi hj => hs4 i j c (by omega) (by omega)⟩

theorem maskSpikeAux (M : Arr3) (hH : M.H = 3) (hW : M.W = 3) (hC : M.C = 1)
    (hMd : ∀ i j c, M.data i j c = if i = 1 ∧ j = 1 then 5 else 0) (i j : ℕ) :
    (image_threshold (npAvgChannels (PlotImage3 M)) (1/2)).data i j =
      if i = 1 ∧ j = 1 then 1 else 0 := by
  have hH0 : 0 < M.H := by omega
  have hW0 : 0 < M.W := by omega
  have hmn : ∀ c, npAminC M c = 0 := by
    intro c
    apply npAminC_eq_of
    · exact ⟨0, hH0, 0, hW0, by rw [hMd]; norm_num⟩
    · intro i2 j2 _ _
      rw [hMd]
      split <;> norm_num
  have hmx : ∀ c, npAmaxC M c = 5 := by
    intro c
    apply npAmaxC_eq_of
    · exact ⟨1, by omega, 1, by omega, by rw [hMd]; norm_num⟩
    · intro i2 j2 _ _
      rw [hMd]
      split <;> norm_num
  have hP : ∀ i2 j2 c, (PlotImage3 M).data i2 j2 c =
      if i2 = 1 ∧ j2 = 1 then 1 else 0 := by
    intro i2 j2 c
    rw [PlotImage3_data_eq M c hH0 hW0, hMd, hmn, hmx]
    split <;> norm_num
  have hA : ∀ i2 j2, (npAvgChannels (PlotImage3 M)).data i2 j2 =
      if i2 = 1 ∧ j2 = 1 then 1 else 0 := by
    intro i2 j2
    show (∑ c in Finset.range (PlotImage3 M).C, (PlotImage3 M).data i2 j2 c) /
      ((PlotImage3 M).C : ℝ) = _
    have hPC : (PlotImage3 M).C = 1 := hC
    rw [hPC, Finset.sum_range_one, hP i2 j2 0]
    split <;> norm_num
  have hAH : 0 < (npAvgChannels (PlotImage3 M)).H := hH0
  have hAW : 0 < (npAvgChannels (PlotImage3 M)).W := hW0
  have hmn2 : npAmin2 (npAvgChannels (PlotImage3 M)) = 0 := by
    apply npAmin2_eq_of
    · exact ⟨0, hAH, 0, hAW, by rw [hA]; norm_num⟩
    · intro i3 j3 _ _
      rw [hA]
      split <;> norm_num
  have hmx2 : npAmax2 (npAvgChannels (PlotImage3 M)) = 1 := by
    apply npAmax2_eq_of
    · refine ⟨1, ?_, 1, ?_, by rw [hA]; norm_num⟩
      · show 1 < M.H
        omega
      · show 1 < M.W
        omega
    · intro i3 j3 _ _
      rw [hA]
      split <;> norm_num
  have hP2 : (PlotImage2 (npAvgChannels (PlotImage3 M))).data i j =
      if i = 1 ∧ j = 1 then 1 else 0 := by
    rw [PlotImage2_data_eq _ hAH hAW, hA i j, hmn2, hmx2]
    split <;> norm_num
  simp only [image_threshold]
  rw [hP2]
  by_cases h : i = 1 ∧ j = 1
  · rw [if_pos h]
    norm_num
  · rw [if_neg h]
    norm_num

theorem cgx3_mask_eval (i j : ℕ) :
    (watermarkMask cgx3 cgy3 (1/2)).data i j = if i = 1 ∧ j = 1 then 1 else 0 := by
  unfold watermarkMask
  refine maskSpikeAux _ rfl rfl rfl ?_ i j
  intro i2 j2 c2
  show Real.sqrt ((cgx3.data i2 j2 c2) ^ 2 + (cgy3.data i2 j2 c2) ^ 2) = _
  by_cases h : i2 = 1 ∧ j2 = 1
  · rw [if_pos h]
    simp only [cgx3, cgy3, if_pos h]
    rw [show ((3:ℝ)) ^ 2 + (4:ℝ) ^ 2 = 5 ^ 2 by norm_num]
    exact Real.sqrt_sq (by norm_num)
  · rw [if_neg h]
    simp only [cgx3, cgy3, if_neg h]
    norm_num

/-- C3 counterexample: on the 3x3 field whose mask is exactly the center
pixel (rectangle R = {1}x{1}), with `boundary_size = 0` and threshold 1/2,
the claim predicts a crop equal to R expanded by exactly 0 pixels per side —
extent 1x1 — but `crop_watermark` returns a 2x2 crop (rows 0..1, the source
slice `[min-0-1 : max+0+1]` adds one extra row/column at the top/left). -/
theorem crop_watermark_cex :
    (crop_watermark cgx3 cgy3 (1/2) 0).map (fun p => (p.1.H, p.1.W)) =
      Except.ok (2, 2) ∧
    claimCropExtent 1 1 0 = 1 ∧ (((2:ℕ), (2:ℕ)) ≠ ((1:ℕ), (1:ℕ))) := by
  have hmem_pos : ∀ p : ℕ × ℕ,
      p ∈ wherePositions (watermarkMask cgx3 cgy3 (1/2)) ↔ p = (1, 1) := by
    intro p
    rw [mem_wherePositions]
    constructor
    · rintro ⟨h1, h2, h3⟩
      rw [cgx3_mask_eval p.1 p.2] at h3
      by_cases h : p.1 = 1 ∧ p.2 = 1
      · exact Prod.ext h.1 h.2
      · rw [if_neg h] at h3
        norm_num at h3
    · rintro rfl
      refine ⟨by show 1 < cgx3.H; norm_num [cgx3],
        by show 1 < cgx3.W; norm_num [cgx3], ?_⟩
      rw [cgx3_mask_eval 1 1]
      norm_num
  have h11 : ((1, 1) : ℕ × ℕ) ∈ wherePositions (watermarkMask cgx3 cgy3 (1/2)) :=
    (hmem_pos _).mpr rfl
  have hminx : npMinIdx ((wherePositions (watermarkMask cgx3 cgy3 (1/2))).map
      Prod.fst) = Except.ok 1 :=
    npMinIdx_eq_of (List.mem_map.mpr ⟨(1, 1), h11, rfl⟩)
      (by
        rintro x hx
        obtain ⟨p, hp, rfl⟩ := List.mem_map.mp hx
        rw [(hmem_pos p).mp hp])
  have hmaxx : npMaxIdx ((wherePositions (watermarkMask cgx3 cgy3 (1/2))).map
      Prod.fst) = Except.ok 1 :=
    npMaxIdx_eq_of (List.mem_map.mpr ⟨(1, 1), h11, rfl⟩)
      (by
        rintro x hx
        obtain ⟨p, hp, rfl⟩ := List.mem_map.mp hx
        rw [(hmem_pos p).mp hp])
  have hminy : npMinIdx ((wherePositions (watermarkMask cgx3 cgy3 (1/2))).map
      Prod.snd) = Except.ok 1 :=
    npMinIdx_eq_of (List.mem_map.mpr ⟨(1, 1), h11, rfl⟩)
      (by
        rintro x hx
        obtain ⟨p, hp, rfl⟩ := List.mem_map.mp hx
        rw [(hmem_pos p).mp hp])
  have hmaxy : npMaxIdx ((wherePositions (watermarkMask cgx3 cgy3 (1/2))).map
      Prod.snd) = Except.ok 1 :=
    npMaxIdx_eq_of (List.mem_map.mpr ⟨(1, 1), h11, rfl⟩)
      (by
        rintro x hx
        obtain ⟨p, hp, rfl⟩ := List.mem_map.mp hx
        rw [(hmem_pos p).mp hp])
  refine ⟨?_, by norm_num [claimCropExtent], by norm_num⟩
  simp only [crop_watermark]
  rw [hminx, hmaxx, hminy, hmaxy]
  rfl

/-- Witness for C3 (amended) on the 3x3 center-spike field with
`boundary_size = 0`: every hypothesis holds and the crop follows the
amended (asymmetric) box. -/
theorem crop_watermark_box_witness :
    (∀ i j, i < cgx3.H → j < cgx3.W →
      ((watermarkMask cgx3 cgy3 (1/2)).data i j = 1 ↔
        (1 ≤ i ∧ i ≤ 1 ∧ 1 ≤ j ∧ j ≤ 1))) ∧
    ((1:ℕ) ≤ 1) ∧ ((1:ℕ) ≤ 1) ∧ (0 + 1 ≤ 1) ∧ (0 + 1 ≤ 1) ∧
    (1 + 0 + 1 ≤ cgx3.H) ∧ (1 + 0 + 1 ≤ cgx3.W) ∧
    (cgy3.H = cgx3.H) ∧ (cgy3.W = cgx3.W) ∧
    (crop_watermark cgx3 cgy3 (1/2) 0 =
      Except.ok
        (slice3 cgx3 ((1 - (0 + 1) : ℕ) : ℤ) ((1 + 0 + 1 : ℕ) : ℤ)
          ((1 - (0 + 1) : ℕ) : ℤ) ((1 + 0 + 1 : ℕ) : ℤ),
         slice3 cgy3 ((1 - (0 + 1) : ℕ) : ℤ) ((1 + 0 + 1 : ℕ) : ℤ)
          ((1 - (0 + 1) : ℕ) : ℤ) ((1 + 0 + 1 : ℕ) : ℤ)) ∧
      ∀ g, g = cgx3 ∨ g = cgy3 →
        (slice3 g ((1 - (0 + 1) : ℕ) : ℤ) ((1 + 0 + 1 : ℕ) : ℤ)
          ((1 - (0 + 1) : ℕ) : ℤ) ((1 + 0 + 1 : ℕ) : ℤ)).H =
            1 - 1 + 2 * 0 + 2 ∧
        (slice3 g ((1 - (0 + 1) : ℕ) : ℤ) ((1 + 0 + 1 : ℕ) : ℤ)
          ((1 - (0 + 1) : ℕ) : ℤ) ((1 + 0 + 1 : ℕ) : ℤ)).W =
            1 - 1 + 2 * 0 + 2 ∧
        (slice3 g ((1 - (0 + 1) : ℕ) : ℤ) ((1 + 0 + 1 : ℕ) : ℤ)
          ((1 - (0 + 1) : ℕ) : ℤ) ((1 + 0 + 1 : ℕ) : ℤ)).C = g.C ∧
        ∀ i j c, i < 1 - 1 + 2 * 0 + 2 → j < 1 - 1 + 2 * 0 + 2 →
          (slice3 g ((1 - (0 + 1) : ℕ) : ℤ) ((1 + 0 + 1 : ℕ) : ℤ)
            ((1 - (0 + 1) : ℕ) : ℤ) ((1 + 0 + 1 : ℕ) : ℤ)).data i j c =
            g.data (1 - (0 + 1) + i) (1 - (0 + 1) + j) c) := by
  have hmask : ∀ i j, i < cgx3.H → j < cgx3.W →
      ((watermarkMask cgx3 cgy3 (1/2)).data i j = 1 ↔
        (1 ≤ i ∧ i ≤ 1 ∧ 1 ≤ j ∧ j ≤ 1)) := by
    intro i j _ _
    rw [cgx3_mask_eval i j]
    by_cases h : i = 1 ∧ j = 1
    · rw [if_pos h]
      simp [h.1, h.2]
    · rw [if_neg h]
      constructor
      · intro h0
        norm_num at h0
      · intro hr
        exact absurd ⟨by omega, by omega⟩ h
  refine ⟨hmask, le_refl 1, le_refl 1, le_refl 1, le_refl 1,
    by norm_num [cgx3], by norm_num [cgx3], rfl, rfl, ?_⟩
  exact crop_watermark_box cgx3 cgy3 (1/2) 0 1 1 1 1 hmask (le_refl 1)
    (le_refl 1) (le_refl 1) (le_refl 1) (by norm_num [cgx3]) (by norm_num [cgx3])
    rfl rfl

/-- C6 counterexample: `poisson_reconstruct2` performs no shape check — with
2x2x1 gradients (whose interior difference arrays are 1x1x1 and therefore
numpy-broadcastable into anything) and a 5x7x3 boundary of a *different*
shape, the solver runs to completion and returns a result instead of
failing. -/
theorem poisson_reconstruct2_no_shape_check :
    (poisson_reconstruct2 czero221 czero221 (some c6b)).isOk = true ∧
    c6b.shape ≠ czero221.shape := by
  constructor
  · rfl
  · norm_num [c6b, czero221, Arr3.shape, Arr3.zeros]

/-- C6 (amended): with an explicit boundary, `poisson_reconstruct2` contains
no explicit shape check; it fails (with the broadcast error) exactly when
one of the two gradient difference arrays is not numpy-broadcastable into
the boundary-shaped accumulator views `f[:-1, 1:, :]` / `f[1:, :-1, :]` —
so an exact shape match always succeeds, but so do broadcast-compatible
mismatches (axes of extent 1). -/
theorem poisson_reconstruct2_isOk_iff (gradx grady b : Arr3) :
    (poisson_reconstruct2 gradx grady (some b)).isOk = true ↔
      (bcastShape (gxxShape gradx) (interiorAddShape b) ∧
       bcastShape (gyyShape grady) (interiorAddShape b)) := by
  simp only [poisson_reconstruct2, Option.getD_some, gxxShape, gyyShape,
    Arr3.shape]
  split_ifs with h1 h2
  · exact iff_of_true rfl ⟨h1, h2⟩
  · exact iff_of_false (by decide) (fun hab => h2 hab.2)
  · exact iff_of_false (by decide) (fun hab => h1 hab.1)

/-- C10 (confirmed): whenever the correlation response has the target's
spatial shape (the `filter2D` contract) and the target is nonempty,
`watermark_detector` returns exactly the triple (annotated copy drawn by
the rectangle collaborator, top-left coordinate, kernel (height, width)),
where the top-left coordinate is a position of maximum correlation response
minus half the kernel height / width respectively. -/
theorem watermark_detector_spec (canny : Arr3 → ℝ → ℝ → Arr2)
    (filt : Arr2 → Arr2 → Arr2) (draw : Arr3 → ℤ × ℤ → ℤ × ℤ → ℝ × ℝ × ℝ → Arr3)
    (img gx gy : Arr3) (tl th : ℝ)
    (hH : (filt (canny img tl th) (magAvg gx gy)).H = img.H)
    (hW : (filt (canny img tl th) (magAvg gx gy)).W = img.W)
    (hHpos : 0 < img.H) (hWpos : 0 < img.W) :
    ∃ i j, i < img.H ∧ j < img.W ∧
      (∀ i2 j2, i2 < img.H → j2 < img.W →
        (filt (canny img tl th) (magAvg gx gy)).data i2 j2 ≤
          (filt (canny img tl th) (magAvg gx gy)).data i j) ∧
      watermark_detector canny filt draw img gx gy tl th =
        (draw img ((j : ℤ) - ((gx.W / 2 : ℕ) : ℤ), (i : ℤ) - ((gx.H / 2 : ℕ) : ℤ))
          ((j : ℤ) - ((gx.W / 2 : ℕ) : ℤ) + (gx.W : ℤ),
           (i : ℤ) - ((gx.H / 2 : ℕ) : ℤ) + (gx.H : ℤ)) (255, 0, 0),
         ((i : ℤ) - ((gx.H / 2 : ℕ) : ℤ), (j : ℤ) - ((gx.W / 2 : ℕ) : ℤ)),
         (gx.H, gx.W)) := by
  have hpos : 0 < (filt (canny img tl th) (magAvg gx gy)).H *
      (filt (canny img tl th) (magAvg gx gy)).W := by
    rw [hH, hW]
    exact Nat.mul_pos hHpos hWpos
  obtain ⟨hlt, hmax⟩ := argmaxFlat_spec (filt (canny img tl th) (magAvg gx gy)) hpos
  refine ⟨argmaxFlat (filt (canny img tl th) (magAvg gx gy)) / img.W,
    argmaxFlat (filt (canny img tl th) (magAvg gx gy)) % img.W,
    ?_, Nat.mod_lt _ hWpos, ?_, ?_⟩
  · have hlt2 : argmaxFlat (filt (canny img tl th) (magAvg gx gy)) <
        img.H * img.W := by
      rw [← hH, ← hW]
      exact hlt
    exact Nat.div_lt_of_lt_mul (by rw [Nat.mul_comm] at hlt2; exact hlt2)
  · intro i2 j2 hi2 hj2
    have hk : i2 * img.W + j2 < img.H * img.W := by
      calc i2 * img.W + j2 < i2 * img.W + img.W := by omega
        _ = (i2 + 1) * img.W := by ring
        _ ≤ img.H * img.W := Nat.mul_le_mul_right _ (by omega)
    have h2 := hmax (i2 * img.W + j2) (by rw [hH, hW]; exact hk)
    rw [hW] at h2
    have hdiv : (i2 * img.W + j2) / img.W = i2 := by
      rw [add_comm, Nat.add_mul_div_right _ _ hWpos, Nat.div_eq_of_lt hj2]
      omega
    have hmod : (i2 * img.W + j2) % img.W = j2 := by
      rw [add_comm, Nat.add_mul_mod_self_right, Nat.mod_eq_of_lt hj2]
    rw [hdiv, hmod] at h2
    exact h2
  · rfl

/-- Witness for C10 with concrete collaborators: a 3x3 response with a
unique maximum and a 2x2 kernel. -/
theorem watermark_detector_spec_witness :
    ((w10filt (w10canny w10img (200/255) (220/255)) (magAvg w10gx w10gx)).H =
      w10img.H) ∧
    ((w10filt (w10canny w10img (200/255) (220/255)) (magAvg w10gx w10gx)).W =
      w10img.W) ∧
    (0 < w10img.H) ∧ (0 < w10img.W) ∧
    (∃ i j, i < w10img.H ∧ j < w10img.W ∧
      (∀ i2 j2, i2 < w10img.H → j2 < w10img.W →
        (w10filt (w10canny w10img (200/255) (220/255))
            (magAvg w10gx w10gx)).data i2 j2 ≤
          (w10filt (w10canny w10img (200/255) (220/255))
            (magAvg w10gx w10gx)).data i j) ∧
      watermark_detector w10canny w10filt w10draw w10img w10gx w10gx
          (200/255) (220/255) =
        (w10draw w10img
          ((j : ℤ) - ((w10gx.W / 2 : ℕ) : ℤ), (i : ℤ) - ((w10gx.H / 2 : ℕ) : ℤ))
          ((j : ℤ) - ((w10gx.W / 2 : ℕ) : ℤ) + (w10gx.W : ℤ),
           (i : ℤ) - ((w10gx.H / 2 : ℕ) : ℤ) + (w10gx.H : ℤ)) (255, 0, 0),
         ((i : ℤ) - ((w10gx.H / 2 : ℕ) : ℤ), (j : ℤ) - ((w10gx.W / 2 : ℕ) : ℤ)),
         (w10gx.H, w10gx.W))) := by
  have hH : (w10filt (w10canny w10img (200/255) (220/255))
      (magAvg w10gx w10gx)).H = w10img.H := rfl
  have hW : (w10filt (w10canny w10img (200/255) (220/255))
      (magAvg w10gx w10gx)).W = w10img.W := rfl
  have h1 : 0 < w10img.H := by norm_num [w10img, Arr3.zeros]
  have h2 : 0 < w10img.W := by norm_num [w10img, Arr3.zeros]
  exact ⟨hH, hW, h1, h2, watermark_detector_spec w10canny w10filt w10draw
    w10img w10gx w10gx (200/255) (220/255) hH hW h1 h2⟩
